import Mathlib

/-!
Shallow embedding of `src/ls8/cpu.py`: an LS-8 CPU emulator.

The machine state mirrors the fields set in `CPU.__init__`: a program
counter, eight registers, 256 RAM cells, a stack pointer starting at
0xF3, and a flags register starting at 0b11000000.  Python integers are
unbounded, so register/RAM/flag values are `Nat` and the stack pointer is
`Int` (it is decremented and could in principle go negative).  Printing
is modelled by an `output` list of strings appended in program order.

Python list indexing (`l[i]`) succeeds for `0 <= i < len`, silently wraps
for `-len <= i < 0` (negative indices address from the end), and raises
`IndexError` otherwise; `pyGet`/`pySet` reproduce exactly that, with
`none` standing for the uncaught exception.  Handlers are
`CPU → Option CPU`, `none` meaning the Python code raised.
-/

namespace LS8

/-- Opcode constants from the top of `cpu.py`. -/
def MUL : Nat := 0b10100010
def ADD : Nat := 0b10100000
def CMP : Nat := 0b10100111

def CALL : Nat := 0b01010000
def RET : Nat := 0b00010001
def IRET : Nat := 0b00010011
def JMP : Nat := 0b01010100
def JEQ : Nat := 0b01010101
def JNE : Nat := 0b01010110

def HLT : Nat := 0b00000001
def LDI : Nat := 0b10000010
def ST : Nat := 0b10000100
def PUSH : Nat := 0b01000101
def POP : Nat := 0b01000110
def PRN : Nat := 0b01000111

/-- The CPU state: the fields assigned in `CPU.__init__`. -/
structure CPU where
  pc : Nat
  reg : List Nat
  ram : List Nat
  sp : Int
  fl : Nat
  output : List String
deriving Repr, DecidableEq

/-- `CPU.__init__`: pc 0, 8 zero registers, 256 zero RAM cells, sp 0xF3,
flags 0b11000000. -/
def initCPU : CPU :=
  { pc := 0
  , reg := List.replicate 8 0
  , ram := List.replicate 256 0
  , sp := 0xF3
  , fl := 0b11000000
  , output := [] }

/-- Python list index resolution: `0 <= i < len` is used directly,
`-len <= i < 0` wraps to `len + i`, anything else raises `IndexError`. -/
def pyIdx (len : Nat) (i : Int) : Option Nat :=
  if 0 ≤ i ∧ i < (len : Int) then some i.toNat
  else if 0 ≤ i + (len : Int) ∧ i < 0 then some (i + (len : Int)).toNat
  else none

/-- Python list read `l[i]`. -/
def pyGet (l : List Nat) (i : Int) : Option Nat :=
  (pyIdx l.length i).bind fun k => l.get? k

/-- Python list write `l[i] = v`. -/
def pySet (l : List Nat) (i : Int) (v : Nat) : Option (List Nat) :=
  (pyIdx l.length i).map fun k => l.set k v

/-- `CPU.ram_read`: `return self.ram[address_to_read]`. -/
def ram_read (s : CPU) (address_to_read : Int) : Option Nat :=
  pyGet s.ram address_to_read

/-- `CPU.ram_write`: `self.ram[address_to_read] = register_to_write_to`. -/
def ram_write (s : CPU) (address_to_read : Int) (register_to_write_to : Nat) :
    Option CPU :=
  (pySet s.ram address_to_read register_to_write_to).map fun m =>
    { s with ram := m }

/-- `CPU.alu`: dispatch on the operation string.  Only the listed
operations exist; anything else raises (`none`).  Note that only `SHL`
masks its result with `0xFF`; `ADD`, `MUL`, `XOR`, `AND`, `OR`, `SHR`
store the raw Python integer. -/
def alu (op : String) (operand_a operand_b : Nat) (s : CPU) : Option CPU :=
  if op = "ADD" then do
    let ra ← pyGet s.reg (operand_a : Int)
    let rb ← pyGet s.reg (operand_b : Int)
    let r ← pySet s.reg (operand_a : Int) (ra + rb)
    pure { s with reg := r }
  else if op = "MUL" then do
    let ra ← pyGet s.reg (operand_a : Int)
    let rb ← pyGet s.reg (operand_b : Int)
    let r ← pySet s.reg (operand_a : Int) (ra * rb)
    pure { s with reg := r }
  else if op = "XOR" then do
    let ra ← pyGet s.reg (operand_a : Int)
    let rb ← pyGet s.reg (operand_b : Int)
    let r ← pySet s.reg (operand_a : Int) (ra ^^^ rb)
    pure { s with reg := r }
  else if op = "AND" then do
    let ra ← pyGet s.reg (operand_a : Int)
    let rb ← pyGet s.reg (operand_b : Int)
    let r ← pySet s.reg (operand_a : Int) (ra &&& rb)
    pure { s with reg := r }
  else if op = "OR" then do
    let ra ← pyGet s.reg (operand_a : Int)
    let rb ← pyGet s.reg (operand_b : Int)
    let r ← pySet s.reg (operand_a : Int) (ra ||| rb)
    pure { s with reg := r }
  else if op = "SHR" then do
    let ra ← pyGet s.reg (operand_a : Int)
    let rb ← pyGet s.reg (operand_b : Int)
    let r ← pySet s.reg (operand_a : Int) (ra >>> rb)
    pure { s with reg := r }
  else if op = "SHL" then do
    let ra ← pyGet s.reg (operand_a : Int)
    let rb ← pyGet s.reg (operand_b : Int)
    let r ← pySet s.reg (operand_a : Int) ((ra <<< rb) &&& 0xFF)
    pure { s with reg := r }
  else if op = "CMP" then do
    let ra ← pyGet s.reg (operand_a : Int)
    let rb ← pyGet s.reg (operand_b : Int)
    let f1 := if ra = rb then s.fl ||| 0b00000001 else s.fl &&& 0b11111110
    let f2 := if ra > rb then f1 ||| 0b00000010 else f1 &&& 0b11111101
    let f3 := if ra < rb then f2 ||| 0b00000100 else f2 &&& 0b11111011
    pure { s with fl := f3 }
  else
    none

/-- `CPU.handle_ldi`: `reg[ram[pc+1]] = ram[pc+2]; pc += 3`.  No mask is
applied to the stored value. -/
def handle_ldi (s : CPU) : Option CPU := do
  let operand_a ← ram_read s ((s.pc : Int) + 1)
  let operand_b ← ram_read s ((s.pc : Int) + 2)
  let r ← pySet s.reg (operand_a : Int) operand_b
  pure { s with reg := r, pc := s.pc + 3 }

/-- `CPU.handle_mul`: `alu("MUL", ram[pc+1], ram[pc+2]); pc += 3`. -/
def handle_mul (s : CPU) : Option CPU := do
  let operand_a ← ram_read s ((s.pc : Int) + 1)
  let operand_b ← ram_read s ((s.pc : Int) + 2)
  let t ← alu "MUL" operand_a operand_b s
  pure { t with pc := t.pc + 3 }

/-- `CPU.handle_add`: `alu("ADD", ram[pc+1], ram[pc+2]); pc += 3`. -/
def handle_add (s : CPU) : Option CPU := do
  let operand_a ← ram_read s ((s.pc : Int) + 1)
  let operand_b ← ram_read s ((s.pc : Int) + 2)
  let t ← alu "ADD" operand_a operand_b s
  pure { t with pc := t.pc + 3 }

/-- `CPU.handle_cmp`: `alu("CMP", ram[pc+1], ram[pc+2]); pc += 3`. -/
def handle_cmp (s : CPU) : Option CPU := do
  let operand_a ← ram_read s ((s.pc : Int) + 1)
  let operand_b ← ram_read s ((s.pc : Int) + 2)
  let t ← alu "CMP" operand_a operand_b s
  pure { t with pc := t.pc + 3 }

/-- `CPU.handle_prn`: print `reg[ram[pc+1]]` in decimal; `pc += 2`. -/
def handle_prn (s : CPU) : Option CPU := do
  let operand_a ← ram_read s ((s.pc : Int) + 1)
  let v ← pyGet s.reg (operand_a : Int)
  pure { s with output := s.output ++ [toString v], pc := s.pc + 2 }

/-- `CPU.handle_pop`: `reg[ram[pc+1]] = ram[sp + 1]; sp += 1; pc += 2`. -/
def handle_pop (s : CPU) : Option CPU := do
  let operand_a ← ram_read s ((s.pc : Int) + 1)
  let v ← ram_read s (s.sp + 1)
  let r ← pySet s.reg (operand_a : Int) v
  pure { s with reg := r, sp := s.sp + 1, pc := s.pc + 2 }

/-- `CPU.handle_push`: `ram[sp] = reg[ram[pc+1]]; pc += 2; sp -= 1`. -/
def handle_push (s : CPU) : Option CPU := do
  let operand_a ← ram_read s ((s.pc : Int) + 1)
  let v ← pyGet s.reg (operand_a : Int)
  let t ← ram_write s s.sp v
  pure { t with pc := t.pc + 2, sp := t.sp - 1 }

/-- `CPU.handle_call`: `sp -= 1; ram[sp] = pc + 2; pc = reg[ram[pc+1]]`. -/
def handle_call (s : CPU) : Option CPU := do
  let operand_a ← ram_read s ((s.pc : Int) + 1)
  let t ← ram_write s (s.sp - 1) (s.pc + 2)
  let v ← pyGet t.reg (operand_a : Int)
  pure { t with sp := t.sp - 1, pc := v }

/-- `CPU.handle_ret`: `pc = ram[sp]; sp += 1`. -/
def handle_ret (s : CPU) : Option CPU := do
  let v ← ram_read s s.sp
  pure { s with pc := v, sp := s.sp + 1 }

/-- `CPU.handle_jmp`: `pc = reg[ram[pc+1]]`. -/
def handle_jmp (s : CPU) : Option CPU := do
  let operand_a ← ram_read s ((s.pc : Int) + 1)
  let v ← pyGet s.reg (operand_a : Int)
  pure { s with pc := v }

/-- `CPU.handle_st`: the SECOND definition in the class body, which
shadows the first (Python rebinds the name); the live handler only
prints the label `"ST"` and touches nothing else — in particular it does
not advance `pc`. -/
def handle_st (s : CPU) : Option CPU :=
  pure { s with output := s.output ++ ["ST"] }

/-- `CPU.handle_jeq`: if `fl & 1 == 1` behave as `handle_jmp`, else
`pc += 2`. -/
def handle_jeq (s : CPU) : Option CPU :=
  if s.fl &&& 0b00000001 = 1 then handle_jmp s
  else pure { s with pc := s.pc + 2 }

/-- `CPU.handle_jne`: if `fl & 1 == 0` behave as `handle_jmp`, else
`pc += 2`. -/
def handle_jne (s : CPU) : Option CPU :=
  if s.fl &&& 0b00000001 = 0 then handle_jmp s
  else pure { s with pc := s.pc + 2 }

/-- The `for r in range(6, -1, -1)` loop of `handle_iret`: the loop
variable is never used, the body is seven calls to
`self.branchtable[POP]`, i.e. `handle_pop`. -/
def iretPops : Nat → CPU → Option CPU
  | 0, s => pure s
  | n + 1, s => (handle_pop s).bind (iretPops n)

/-- `CPU.handle_iret`: seven POPs, then `fl = ram[sp]; sp += 1;
pc = ram[sp]; sp += 1; fl = fl | 0b01000000`. -/
def handle_iret (s : CPU) : Option CPU := do
  let s1 ← iretPops 7 s
  let f ← ram_read s1 s1.sp
  let s2 := { s1 with fl := f, sp := s1.sp + 1 }
  let p ← ram_read s2 s2.sp
  let s3 := { s2 with pc := p, sp := s2.sp + 1 }
  pure { s3 with fl := s3.fl ||| 0b01000000 }

/-- Python's `hex`: `"0x"` followed by lowercase hexadecimal digits. -/
def hexStr (n : Nat) : String :=
  "0x" ++ (Nat.toDigits 16 n).asString

/-- The outcome of dispatching one instruction or running the loop. -/
inductive Outcome where
  /-- The handler returned; the fetch loop continues. -/
  | next (s : CPU)
  /-- `sys.exit()` was called: the whole process terminates. -/
  | exited
  /-- An uncaught Python exception. -/
  | err
  /-- No handler registered: the diagnostic was printed and the `while`
  loop stopped via `break`; the machine state stays inspectable. -/
  | unknown (ir : Nat) (s : CPU)
deriving Repr, DecidableEq

/-- Wrap an ordinary handler as a branch-table entry. -/
def liftH (f : CPU → Option CPU) (s : CPU) : Outcome :=
  match f s with
  | some t => Outcome.next t
  | none => Outcome.err

/-- `CPU.handle_hlt`: `sys.exit()`. -/
def handle_hlt (_ : CPU) : Outcome := Outcome.exited

/-- `self.branchtable`, as built in `CPU.__init__`. -/
def branchtable (ir : Nat) : Option (CPU → Outcome) :=
  if ir = MUL then some (liftH handle_mul)
  else if ir = ADD then some (liftH handle_add)
  else if ir = LDI then some (liftH handle_ldi)
  else if ir = HLT then some handle_hlt
  else if ir = PRN then some (liftH handle_prn)
  else if ir = POP then some (liftH handle_pop)
  else if ir = PUSH then some (liftH handle_push)
  else if ir = RET then some (liftH handle_ret)
  else if ir = CALL then some (liftH handle_call)
  else if ir = JMP then some (liftH handle_jmp)
  else if ir = ST then some (liftH handle_st)
  else if ir = IRET then some (liftH handle_iret)
  else if ir = JEQ then some (liftH handle_jeq)
  else if ir = JNE then some (liftH handle_jne)
  else if ir = CMP then some (liftH handle_cmp)
  else none

/-- One iteration of the `while True` loop in `CPU.run`: fetch the
opcode at `pc`, dispatch it if registered, otherwise print the
diagnostic and `break`. -/
def step (s : CPU) : Outcome :=
  match ram_read s (s.pc : Int) with
  | none => Outcome.err
  | some ir =>
    match branchtable ir with
    | some h => h s
    | none =>
      Outcome.unknown ir
        { s with output :=
            s.output ++ ["instruction_register" ++ hexStr ir ++ " not recognized"] }

/-- `CPU.run`, bounded by fuel: iterate `step` until the loop stops; if
the fuel runs out the in-progress state is returned with `next`. -/
def run : Nat → CPU → Outcome
  | 0, s => Outcome.next s
  | n + 1, s =>
    match step s with
    | Outcome.next t => run n t
    | r => r

/-! Concrete machine states used to evaluate the handlers. -/

/-- Registers R0 and R1 both hold 200. -/
def exAlu : CPU := { initCPU with reg := [200, 200, 0, 0, 0, 0, 0, 0] }

/-- An LDI instruction at address 0 targeting R0 with the (over-wide)
immediate 300 in the operand cell. -/
def exLdi : CPU := { initCPU with ram := (List.replicate 256 0).set 2 300 }

/-- RAM whose last cell (address 255) holds 7. -/
def exWrap : CPU := { initCPU with ram := (List.replicate 256 0).set 255 7 }

/-- A stack image for IRET at sp = 0xF3: cells 244–250 hold the seven
saved register values 9,8,7,6,5,4,3 (for R6 down to R0), cell 251 the
saved flags 2, cell 252 the saved return address 99.  All operand cells
after pc = 0 are zero, so every POP names R0. -/
def exIret : CPU :=
  { initCPU with
    ram :=
      ((((((((((List.replicate 256 0).set 244 9).set 245 8).set 246 7).set
        247 6).set 248 5).set 249 4).set 250 3).set 251 2).set 252 99)
  , sp := 243
  , fl := 0 }

/-- An ST opcode at address 0. -/
def exSt : CPU := { initCPU with ram := (List.replicate 256 0).set 0 ST }

/-- A PUSH/POP pair at addresses 0 and 2, both naming R2, which holds
42. -/
def exPush : CPU :=
  { initCPU with
    ram := ((List.replicate 256 0).set 1 2).set 3 2
  , reg := [0, 0, 42, 0, 0, 0, 0, 0] }

/-- A CALL at address 0 naming R3, which holds the target 77. -/
def exCall : CPU :=
  { initCPU with
    ram := (List.replicate 256 0).set 1 3
  , reg := [0, 0, 0, 77, 0, 0, 0, 0] }

/-- A conditional jump at address 0 naming R1, which holds the target
50; the Equal flag is clear (fl = 0b11000000). -/
def exJmp : CPU :=
  { initCPU with
    ram := (List.replicate 256 0).set 1 1
  , reg := [0, 50, 0, 0, 0, 0, 0, 0] }

/-! Helper lemmas about the Python indexing primitives. -/

theorem pyIdx_natCast (len i : Nat) (h : i < len) :
    pyIdx len (i : Int) = some i := by
  unfold pyIdx
  rw [if_pos ⟨Int.natCast_nonneg i, by exact_mod_cast h⟩]
  simp

theorem pyGet_natCast (l : List Nat) (i : Nat) (h : i < l.length) :
    pyGet l (i : Int) = l.get? i := by
  unfold pyGet
  rw [pyIdx_natCast _ _ h]
  rfl

theorem pySet_natCast (l : List Nat) (i v : Nat) (h : i < l.length) :
    pySet l (i : Int) v = some (l.set i v) := by
  unfold pySet
  rw [pyIdx_natCast _ _ h]
  rfl

theorem get?_lt_length {l : List Nat} {i v : Nat} (h : l.get? i = some v) :
    i < l.length := by
  by_contra hc
  rw [List.get?_eq_none.mpr (Nat.le_of_not_lt hc)] at h
  exact Option.noConfusion h

/-- C1 (amended): executing the ALU operations ADD, MUL, AND, OR, XOR
sets `reg[a] = reg[a] OP reg[b]` with NO 8-bit mask applied (the raw
result is stored, and for ADD and MUL it may exceed 255), leaving every
register other than `a` — in particular `reg[b]` whenever `b ≠ a` —
unchanged. -/
theorem alu_arithmetic_unmasked (s : CPU) (a b ra rb : Nat)
    (hra : s.reg.get? a = some ra) (hrb : s.reg.get? b = some rb) :
    alu "ADD" a b s = some { s with reg := s.reg.set a (ra + rb) } ∧
    alu "MUL" a b s = some { s with reg := s.reg.set a (ra * rb) } ∧
    alu "AND" a b s = some { s with reg := s.reg.set a (ra &&& rb) } ∧
    alu "OR" a b s = some { s with reg := s.reg.set a (ra ||| rb) } ∧
    alu "XOR" a b s = some { s with reg := s.reg.set a (ra ^^^ rb) } ∧
    ∀ v j, j ≠ a → (s.reg.set a v).get? j = s.reg.get? j := by
  have ha : a < s.reg.length := get?_lt_length hra
  have hb : b < s.reg.length := get?_lt_length hrb
  have hA := pyGet_natCast s.reg a ha
  have hB := pyGet_natCast s.reg b hb
  have hra2 : s.reg[a]? = some ra := by rw [← List.get?_eq_getElem?]; exact hra
  have hrb2 : s.reg[b]? = some rb := by rw [← List.get?_eq_getElem?]; exact hrb
  refine ⟨?_, ?_, ?_, ?_, ?_, fun v j hj => by
    rw [List.get?_eq_getElem?, List.get?_eq_getElem?]
    exact List.getElem?_set_ne (Ne.symm hj)⟩ <;>
    simp [alu, hA, hB, hra, hrb, hra2, hrb2, pySet_natCast _ _ _ ha]

/-- C1 counterexample: with both registers holding 200, ADD stores the
raw sum 400, not the 8-bit-masked 144 the claim requires. -/
theorem alu_add_mask_counterexample :
    (alu "ADD" 0 1 exAlu).map (fun t => t.reg.get? 0) = some (some 400) ∧
    (200 + 200) % 256 = 144 ∧ (400 : Nat) ≠ 144 := by decide

/-- C1 witness: the amended theorem applied at two registers holding
200. -/
theorem alu_arithmetic_unmasked_witness :
    alu "ADD" 0 1 exAlu = some { exAlu with reg := exAlu.reg.set 0 (200 + 200) } :=
  (alu_arithmetic_unmasked exAlu 0 1 200 200 rfl rfl).1

/-- Values of `Nat.testBit` on the mask constants of `CPU.alu`'s CMP
branch, bits 0–2. -/
theorem testBit_mask_consts :
    (Nat.testBit 1 0 = true) ∧ (Nat.testBit 1 1 = false) ∧
    (Nat.testBit 1 2 = false) ∧ (Nat.testBit 2 0 = false) ∧
    (Nat.testBit 2 1 = true) ∧ (Nat.testBit 2 2 = false) ∧
    (Nat.testBit 4 0 = false) ∧ (Nat.testBit 4 1 = false) ∧
    (Nat.testBit 4 2 = true) ∧ (Nat.testBit 254 0 = false) ∧
    (Nat.testBit 254 1 = true) ∧ (Nat.testBit 254 2 = true) ∧
    (Nat.testBit 253 0 = true) ∧ (Nat.testBit 253 1 = false) ∧
    (Nat.testBit 253 2 = true) ∧ (Nat.testBit 251 0 = true) ∧
    (Nat.testBit 251 1 = true) ∧ (Nat.testBit 251 2 = false) := by
  decide

/-- C2: CMP(a,b) sets the Equal bit (flags bit 0) iff
`reg[a] == reg[b]`, the GreaterThan bit (flags bit 1) iff
`reg[a] > reg[b]`, the LessThan bit (flags bit 2) iff `reg[a] < reg[b]`,
for every prior flags value, and exactly one of the three bits is set
afterwards. -/
theorem alu_cmp_flags (s : CPU) (a b ra rb : Nat)
    (hra : s.reg.get? a = some ra) (hrb : s.reg.get? b = some rb) :
    ∃ t, alu "CMP" a b s = some t ∧
      t.fl.testBit 0 = decide (ra = rb) ∧
      t.fl.testBit 1 = decide (rb < ra) ∧
      t.fl.testBit 2 = decide (ra < rb) ∧
      ((t.fl.testBit 0 = true ∧ t.fl.testBit 1 = false ∧ t.fl.testBit 2 = false) ∨
       (t.fl.testBit 0 = false ∧ t.fl.testBit 1 = true ∧ t.fl.testBit 2 = false) ∨
       (t.fl.testBit 0 = false ∧ t.fl.testBit 1 = false ∧ t.fl.testBit 2 = true)) := by
  have ha : a < s.reg.length := get?_lt_length hra
  have hb : b < s.reg.length := get?_lt_length hrb
  have hA := pyGet_natCast s.reg a ha
  have hB := pyGet_natCast s.reg b hb
  have hra2 : s.reg[a]? = some ra := by rw [← List.get?_eq_getElem?]; exact hra
  have hrb2 : s.reg[b]? = some rb := by rw [← List.get?_eq_getElem?]; exact hrb
  obtain ⟨t1, t2, t3, t4, t5, t6, t7, t8, t9, t10, t11, t12, t13, t14, t15,
    t16, t17, t18⟩ := testBit_mask_consts
  rcases Nat.lt_trichotomy ra rb with h | h | h
  · have hne : ra ≠ rb := Nat.ne_of_lt h
    have hng : ¬ rb < ra := Nat.lt_asymm h
    refine ⟨{ s with fl := ((s.fl &&& 0b11111110) &&& 0b11111101) ||| 0b00000100 },
      ?_, ?_, ?_, ?_, ?_⟩
    · simp [alu, hA, hB, hra, hrb, hra2, hrb2, h, hne, hng]
    · simp [Nat.testBit_or, Nat.testBit_and, t1, t2, t3, t4, t5, t6, t7, t8, t9, t10, t11, t12, t13, t14, t15, t16, t17, t18, hne]
    · simp [Nat.testBit_or, Nat.testBit_and, t1, t2, t3, t4, t5, t6, t7, t8, t9, t10, t11, t12, t13, t14, t15, t16, t17, t18, hng]
    · simp [Nat.testBit_or, Nat.testBit_and, t1, t2, t3, t4, t5, t6, t7, t8, t9, t10, t11, t12, t13, t14, t15, t16, t17, t18, h]
    · exact Or.inr (Or.inr
        ⟨by simp [Nat.testBit_or, Nat.testBit_and, t1, t2, t3, t4, t5, t6, t7, t8, t9, t10, t11, t12, t13, t14, t15, t16, t17, t18],
         by simp [Nat.testBit_or, Nat.testBit_and, t1, t2, t3, t4, t5, t6, t7, t8, t9, t10, t11, t12, t13, t14, t15, t16, t17, t18],
         by simp [Nat.testBit_or, Nat.testBit_and, t1, t2, t3, t4, t5, t6, t7, t8, t9, t10, t11, t12, t13, t14, t15, t16, t17, t18]⟩)
  · have hng : ¬ rb < ra := by omega
    have hnl : ¬ ra < rb := by omega
    refine ⟨{ s with fl := ((s.fl ||| 0b00000001) &&& 0b11111101) &&& 0b11111011 },
      ?_, ?_, ?_, ?_, ?_⟩
    · simp [alu, hA, hB, hra, hrb, hra2, hrb2, h, hng, hnl]
    · simp [Nat.testBit_or, Nat.testBit_and, t1, t2, t3, t4, t5, t6, t7, t8, t9, t10, t11, t12, t13, t14, t15, t16, t17, t18, h]
    · simp [Nat.testBit_or, Nat.testBit_and, t1, t2, t3, t4, t5, t6, t7, t8, t9, t10, t11, t12, t13, t14, t15, t16, t17, t18, hng]
    · simp [Nat.testBit_or, Nat.testBit_and, t1, t2, t3, t4, t5, t6, t7, t8, t9, t10, t11, t12, t13, t14, t15, t16, t17, t18, hnl]
    · exact Or.inl
        ⟨by simp [Nat.testBit_or, Nat.testBit_and, t1, t2, t3, t4, t5, t6, t7, t8, t9, t10, t11, t12, t13, t14, t15, t16, t17, t18],
         by simp [Nat.testBit_or, Nat.testBit_and, t1, t2, t3, t4, t5, t6, t7, t8, t9, t10, t11, t12, t13, t14, t15, t16, t17, t18],
         by simp [Nat.testBit_or, Nat.testBit_and, t1, t2, t3, t4, t5, t6, t7, t8, t9, t10, t11, t12, t13, t14, t15, t16, t17, t18]⟩
  · have hne : ra ≠ rb := (Nat.ne_of_lt h).symm
    have hnl : ¬ ra < rb := Nat.lt_asymm h
    refine ⟨{ s with fl := ((s.fl &&& 0b11111110) ||| 0b00000010) &&& 0b11111011 },
      ?_, ?_, ?_, ?_, ?_⟩
    · simp [alu, hA, hB, hra, hrb, hra2, hrb2, h, hne, hnl]
    · simp [Nat.testBit_or, Nat.testBit_and, t1, t2, t3, t4, t5, t6, t7, t8, t9, t10, t11, t12, t13, t14, t15, t16, t17, t18, hne]
    · simp [Nat.testBit_or, Nat.testBit_and, t1, t2, t3, t4, t5, t6, t7, t8, t9, t10, t11, t12, t13, t14, t15, t16, t17, t18, h]
    · simp [Nat.testBit_or, Nat.testBit_and, t1, t2, t3, t4, t5, t6, t7, t8, t9, t10, t11, t12, t13, t14, t15, t16, t17, t18, hnl]
    · exact Or.inr (Or.inl
        ⟨by simp [Nat.testBit_or, Nat.testBit_and, t1, t2, t3, t4, t5, t6, t7, t8, t9, t10, t11, t12, t13, t14, t15, t16, t17, t18],
         by simp [Nat.testBit_or, Nat.testBit_and, t1, t2, t3, t4, t5, t6, t7, t8, t9, t10, t11, t12, t13, t14, t15, t16, t17, t18],
         by simp [Nat.testBit_or, Nat.testBit_and, t1, t2, t3, t4, t5, t6, t7, t8, t9, t10, t11, t12, t13, t14, t15, t16, t17, t18]⟩)

/-- C2 witness: the theorem applied at the freshly constructed CPU,
whose registers R0 and R1 are equal (both 0). -/
theorem alu_cmp_flags_witness :
    ∃ t, alu "CMP" 0 1 initCPU = some t ∧
      t.fl.testBit 0 = decide ((0 : Nat) = 0) ∧
      t.fl.testBit 1 = decide ((0 : Nat) < 0) ∧
      t.fl.testBit 2 = decide ((0 : Nat) < 0) ∧
      ((t.fl.testBit 0 = true ∧ t.fl.testBit 1 = false ∧ t.fl.testBit 2 = false) ∨
       (t.fl.testBit 0 = false ∧ t.fl.testBit 1 = true ∧ t.fl.testBit 2 = false) ∨
       (t.fl.testBit 0 = false ∧ t.fl.testBit 1 = false ∧ t.fl.testBit 2 = true)) :=
  alu_cmp_flags initCPU 0 1 0 0 rfl rfl

/-- C3: PUSH(r) writes `reg[r]` to RAM at the current SP and decrements
SP; POP(r) reads RAM at SP + 1 into `reg[r]` and increments SP.  With
the PUSH at `pc` and the POP at `pc + 2`, both naming register `r`, a
valid SP (`1 ≤ n < 256`) whose write does not clobber the POP's operand
byte, the pair restores `reg[r]` to its original value `v` even when the
register is overwritten with an arbitrary `w` in between, and SP returns
exactly to its pre-push value. -/
theorem push_pop_roundtrip (s : CPU) (r v w n : Nat)
    (hreg : s.reg.length = 8) (hr : r < 8)
    (hop1 : s.ram.get? (s.pc + 1) = some r)
    (hop2 : s.ram.get? (s.pc + 3) = some r)
    (hv : s.reg.get? r = some v)
    (hsp : s.sp = (n : Int)) (hn1 : 1 ≤ n) (hn2 : n < 256)
    (hram : s.ram.length = 256)
    (hnc : n ≠ s.pc + 3) :
    ∃ s1, handle_push s = some s1 ∧ s1.sp = s.sp - 1 ∧
      ∃ s3, handle_pop { s1 with reg := s1.reg.set r w } = some s3 ∧
        s3.reg.get? r = some v ∧ s3.sp = s.sp := by
  have hrl : r < s.reg.length := by rw [hreg]; exact hr
  have hnl : n < s.ram.length := by rw [hram]; exact hn2
  have e1 : (s.pc : Int) + 1 = ((s.pc + 1 : Nat) : Int) := by push_cast; ring
  have h1 : ram_read s ((s.pc : Int) + 1) = some r := by
    rw [ram_read, e1, pyGet_natCast _ _ (get?_lt_length hop1)]; exact hop1
  have h2 : pyGet s.reg (r : Int) = some v := by
    rw [pyGet_natCast _ _ hrl]; exact hv
  have h3 : ram_write s s.sp v = some { s with ram := s.ram.set n v } := by
    rw [ram_write, hsp, pySet_natCast _ _ _ hnl]; rfl
  refine ⟨{ s with ram := s.ram.set n v, pc := s.pc + 2, sp := s.sp - 1 },
    by simp [handle_push, h1, h2, h3], rfl, ?_⟩
  have hp3 : s.pc + 3 < (s.ram.set n v).length := by
    rw [List.length_set]; exact get?_lt_length hop2
  have e2 : (s.pc + 2 : Int) + 1 = ((s.pc + 3 : Nat) : Int) := by push_cast; ring
  have h4 : pyGet (s.ram.set n v) ((s.pc + 3 : Nat) : Int) = some r := by
    rw [pyGet_natCast _ _ hp3, List.get?_eq_getElem?,
      List.getElem?_set_ne hnc, ← List.get?_eq_getElem?]
    exact hop2
  have e3 : s.sp - 1 + 1 = (n : Int) := by rw [hsp]; ring
  have h5 : pyGet (s.ram.set n v) ((n : Nat) : Int) = some v := by
    rw [pyGet_natCast _ _ (by rw [List.length_set]; exact hnl),
      List.get?_eq_getElem?]
    exact List.getElem?_set_self hnl
  have h6 : pySet (s.reg.set r w) (r : Int) v = some ((s.reg.set r w).set r v) :=
    pySet_natCast _ _ _ (by rw [List.length_set]; exact hrl)
  have h4b : pyGet (s.ram.set n v) ((s.pc : Int) + 2 + 1) = some r := by
    rw [e2]; exact h4
  have h5b : pyGet (s.ram.set n v) s.sp = some v := by
    rw [hsp]; exact h5
  refine ⟨{ s with
      ram := s.ram.set n v,
      reg := (s.reg.set r w).set r v,
      pc := s.pc + 2 + 2,
      sp := s.sp - 1 + 1 }, ?_, ?_, ?_⟩
  · simp [handle_pop, ram_read, h4b, h5b, h6]
  · rw [List.get?_eq_getElem?]
    exact List.getElem?_set_self (by rw [List.length_set]; exact hrl)
  · simp

set_option maxRecDepth 4000 in
/-- C3 witness: the round trip at a PUSH/POP pair naming R2 (holding
42), with SP at its initial 0xF3 and the register zeroed in between. -/
theorem push_pop_roundtrip_witness :
    ∃ s1, handle_push exPush = some s1 ∧ s1.sp = exPush.sp - 1 ∧
      ∃ s3, handle_pop { s1 with reg := s1.reg.set 2 0 } = some s3 ∧
        s3.reg.get? 2 = some 42 ∧ s3.sp = exPush.sp :=
  push_pop_roundtrip exPush 2 42 0 243 (by decide) (by decide) (by decide)
    (by decide) (by decide) (by decide) (by decide) (by decide) (by decide)
    (by decide)

/-- C4: CALL(r) at pc = p decrements SP, writes p + 2 to RAM at the new
SP, and sets PC to `reg[r]`; any later RET from a state with the same SP
and the saved cell intact (no intervening stack mutation) restores
PC to p + 2 and SP to its pre-call value. -/
theorem call_ret_roundtrip (s : CPU) (r target n : Nat)
    (hr : r < 8) (hreg : s.reg.length = 8)
    (hop : s.ram.get? (s.pc + 1) = some r)
    (htar : s.reg.get? r = some target)
    (hsp : s.sp = (n : Int)) (hn1 : 1 ≤ n) (hn2 : n ≤ 256)
    (hram : s.ram.length = 256) :
    ∃ s1, handle_call s = some s1 ∧ s1.pc = target ∧ s1.sp = s.sp - 1 ∧
      s1.ram.get? (n - 1) = some (s.pc + 2) ∧
      ∀ t : CPU, t.sp = s.sp - 1 → t.ram.get? (n - 1) = some (s.pc + 2) →
        ∃ t2, handle_ret t = some t2 ∧ t2.pc = s.pc + 2 ∧ t2.sp = s.sp := by
  have hrl : r < s.reg.length := by rw [hreg]; exact hr
  have hn3 : n - 1 < s.ram.length := by rw [hram]; omega
  have e1 : (s.pc : Int) + 1 = ((s.pc + 1 : Nat) : Int) := by push_cast; ring
  have h1 : ram_read s ((s.pc : Int) + 1) = some r := by
    rw [ram_read, e1, pyGet_natCast _ _ (get?_lt_length hop)]; exact hop
  have e2 : s.sp - 1 = ((n - 1 : Nat) : Int) := by rw [hsp]; omega
  have h2 : ram_write s (s.sp - 1) (s.pc + 2) =
      some { s with ram := s.ram.set (n - 1) (s.pc + 2) } := by
    rw [ram_write, e2, pySet_natCast _ _ _ hn3]; rfl
  have h3 : pyGet s.reg (r : Int) = some target := by
    rw [pyGet_natCast _ _ hrl]; exact htar
  refine ⟨{ s with
      ram := s.ram.set (n - 1) (s.pc + 2),
      sp := s.sp - 1,
      pc := target }, ?_, rfl, rfl, ?_, ?_⟩
  · simp [handle_call, h1, h2, h3]
  · rw [List.get?_eq_getElem?]
    exact List.getElem?_set_self hn3
  · intro t hts htr
    have h4 : ram_read t t.sp = some (s.pc + 2) := by
      rw [ram_read, hts, e2, pyGet_natCast _ _ (get?_lt_length htr)]
      exact htr
    refine ⟨{ t with pc := s.pc + 2, sp := t.sp + 1 }, ?_, rfl, ?_⟩
    · simp [handle_ret, h4]
    · rw [hts]; ring

set_option maxRecDepth 4000 in
/-- C4 witness: a CALL at pc = 0 naming R3 (holding 77) with SP at 0xF3,
then RET directly from the post-call state. -/
theorem call_ret_roundtrip_witness :
    ∃ s1, handle_call exCall = some s1 ∧ s1.pc = 77 ∧ s1.sp = exCall.sp - 1 ∧
      s1.ram.get? (243 - 1) = some (exCall.pc + 2) ∧
      ∀ t : CPU, t.sp = exCall.sp - 1 →
        t.ram.get? (243 - 1) = some (exCall.pc + 2) →
        ∃ t2, handle_ret t = some t2 ∧ t2.pc = exCall.pc + 2 ∧
          t2.sp = exCall.sp :=
  call_ret_roundtrip exCall 3 77 243 (by decide) (by decide) (by decide)
    (by decide) (by decide) (by decide) (by decide) (by decide)

/-- Bit 0 of the flags register, as tested by `fl & 0b00000001`. -/
theorem and_one_of_testBit (m : Nat) :
    (m.testBit 0 = true → m &&& 1 = 1) ∧ (m.testBit 0 = false → m &&& 1 = 0) := by
  rw [Nat.and_one_is_mod, Nat.testBit_zero]
  constructor
  · intro h; exact of_decide_eq_true h
  · intro h; have := of_decide_eq_false h; omega

/-- C5: when the Equal flag (flags bit 0) is set, JEQ jumps to
`reg[ram[pc+1]]` and JNE advances pc by exactly 2; when it is clear, JNE
jumps and JEQ advances pc by exactly 2. -/
theorem jeq_jne_equal_flag (s : CPU) (i target : Nat)
    (hop : s.ram.get? (s.pc + 1) = some i)
    (htar : s.reg.get? i = some target) :
    (s.fl.testBit 0 = true →
      handle_jeq s = some { s with pc := target } ∧
      handle_jne s = some { s with pc := s.pc + 2 }) ∧
    (s.fl.testBit 0 = false →
      handle_jne s = some { s with pc := target } ∧
      handle_jeq s = some { s with pc := s.pc + 2 }) := by
  have e1 : (s.pc : Int) + 1 = ((s.pc + 1 : Nat) : Int) := by push_cast; ring
  have h1 : ram_read s ((s.pc : Int) + 1) = some i := by
    rw [ram_read, e1, pyGet_natCast _ _ (get?_lt_length hop)]; exact hop
  have h2 : pyGet s.reg (i : Int) = some target := by
    rw [pyGet_natCast _ _ (get?_lt_length htar)]; exact htar
  have hjmp : handle_jmp s = some { s with pc := target } := by
    simp [handle_jmp, h1, h2]
  constructor
  · intro hb
    have ha : s.fl &&& 1 = 1 := (and_one_of_testBit s.fl).1 hb
    exact ⟨by simp [handle_jeq, ha, hjmp], by simp [handle_jne, ha]⟩
  · intro hb
    have ha : s.fl &&& 1 = 0 := (and_one_of_testBit s.fl).2 hb
    exact ⟨by simp [handle_jne, ha, hjmp], by simp [handle_jeq, ha]⟩

set_option maxRecDepth 4000 in
/-- C5 witness: with the Equal flag clear (fl = 0b11000000), JNE jumps
to the target 50 in R1 and JEQ falls through to pc + 2. -/
theorem jeq_jne_equal_flag_witness :
    handle_jne exJmp = some { exJmp with pc := 50 } ∧
    handle_jeq exJmp = some { exJmp with pc := exJmp.pc + 2 } :=
  (jeq_jne_equal_flag exJmp 1 50 (by decide) (by decide)).2 (by decide)

/-- A branch-table entry built from an ordinary handler never calls
`sys.exit`: it yields `next` or `err`, depending on whether the handler
raised. -/
theorem liftH_ne_exited (f : CPU → Option CPU) (t : CPU) :
    liftH f t ≠ Outcome.exited := by
  unfold liftH
  cases f t <;> simp

/-- C6: fetching an opcode with no registered handler makes the run loop
print a diagnostic naming that opcode's value and stop, handing back the
otherwise-unchanged machine state; and HLT is the only opcode whose
handler terminates the entire process. -/
theorem unknown_opcode_stops_loop_only (s : CPU) (ir fuel : Nat)
    (hir : ram_read s (s.pc : Int) = some ir)
    (hun : branchtable ir = none) :
    run (fuel + 1) s =
      Outcome.unknown ir
        { s with output := s.output ++
            ["instruction_register" ++ hexStr ir ++ " not recognized"] } ∧
    (∀ op h t, branchtable op = some h → h t = Outcome.exited → op = HLT) ∧
    branchtable HLT = some handle_hlt ∧
    (∀ t, handle_hlt t = Outcome.exited) := by
  refine ⟨?_, ?_, rfl, fun t => rfl⟩
  · show run (fuel + 1) s = _
    unfold run step
    rw [hir]
    simp [hun]
  · intro op h t hbt hex
    unfold branchtable at hbt
    by_cases c1 : op = MUL
    · rw [c1, if_pos rfl] at hbt
      injection hbt with hh
      subst hh
      exact absurd hex (liftH_ne_exited _ _)
    rw [if_neg c1] at hbt
    by_cases c2 : op = ADD
    · rw [c2, if_pos rfl] at hbt
      injection hbt with hh
      subst hh
      exact absurd hex (liftH_ne_exited _ _)
    rw [if_neg c2] at hbt
    by_cases c3 : op = LDI
    · rw [c3, if_pos rfl] at hbt
      injection hbt with hh
      subst hh
      exact absurd hex (liftH_ne_exited _ _)
    rw [if_neg c3] at hbt
    by_cases c4 : op = HLT
    · exact c4
    rw [if_neg c4] at hbt
    by_cases c5 : op = PRN
    · rw [c5, if_pos rfl] at hbt
      injection hbt with hh
      subst hh
      exact absurd hex (liftH_ne_exited _ _)
    rw [if_neg c5] at hbt
    by_cases c6 : op = POP
    · rw [c6, if_pos rfl] at hbt
      injection hbt with hh
      subst hh
      exact absurd hex (liftH_ne_exited _ _)
    rw [if_neg c6] at hbt
    by_cases c7 : op = PUSH
    · rw [c7, if_pos rfl] at hbt
      injection hbt with hh
      subst hh
      exact absurd hex (liftH_ne_exited _ _)
    rw [if_neg c7] at hbt
    by_cases c8 : op = RET
    · rw [c8, if_pos rfl] at hbt
      injection hbt with hh
      subst hh
      exact absurd hex (liftH_ne_exited _ _)
    rw [if_neg c8] at hbt
    by_cases c9 : op = CALL
    · rw [c9, if_pos rfl] at hbt
      injection hbt with hh
      subst hh
      exact absurd hex (liftH_ne_exited _ _)
    rw [if_neg c9] at hbt
    by_cases c10 : op = JMP
    · rw [c10, if_pos rfl] at hbt
      injection hbt with hh
      subst hh
      exact absurd hex (liftH_ne_exited _ _)
    rw [if_neg c10] at hbt
    by_cases c11 : op = ST
    · rw [c11, if_pos rfl] at hbt
      injection hbt with hh
      subst hh
      exact absurd hex (liftH_ne_exited _ _)
    rw [if_neg c11] at hbt
    by_cases c12 : op = IRET
    · rw [c12, if_pos rfl] at hbt
      injection hbt with hh
      subst hh
      exact absurd hex (liftH_ne_exited _ _)
    rw [if_neg c12] at hbt
    by_cases c13 : op = JEQ
    · rw [c13, if_pos rfl] at hbt
      injection hbt with hh
      subst hh
      exact absurd hex (liftH_ne_exited _ _)
    rw [if_neg c13] at hbt
    by_cases c14 : op = JNE
    · rw [c14, if_pos rfl] at hbt
      injection hbt with hh
      subst hh
      exact absurd hex (liftH_ne_exited _ _)
    rw [if_neg c14] at hbt
    by_cases c15 : op = CMP
    · rw [c15, if_pos rfl] at hbt
      injection hbt with hh
      subst hh
      exact absurd hex (liftH_ne_exited _ _)
    rw [if_neg c15] at hbt
    simp at hbt

set_option maxRecDepth 4000 in
/-- C6 witness: the freshly constructed CPU fetches opcode 0 (NOP has no
handler), and one loop iteration stops with the diagnostic. -/
theorem unknown_opcode_stops_loop_only_witness :
    run 1 initCPU = Outcome.unknown 0
      { initCPU with output := initCPU.output ++
          ["instruction_register" ++ hexStr 0 ++ " not recognized"] } :=
  (unknown_opcode_stops_loop_only initCPU 0 0 (by decide) rfl).1

set_option maxRecDepth 8000 in
/-- C7 (code bug): evaluating `handle_iret` on a stack image holding the
register values 9..3 (for R6 down to R0), saved flags 2, and saved
return address 99.  The loop variable of the seven POPs is unused, so
every POP targets `reg[ram[pc+1+2k]]` (here R0); the flags read then
re-reads the already-popped cell (value 3, giving fl = 3 ||| 64 = 67
instead of 2 ||| 64 = 66), and PC receives the saved-flags cell (2)
rather than the saved return address 99.  R6..R1 keep their prior value
0 instead of 9..4. -/
theorem iret_bug_eval :
    (handle_iret exIret).map (fun t => (t.reg, t.pc, t.sp, t.fl)) =
      some ([3, 0, 0, 0, 0, 0, 0, 0], 2, 252, 67) ∧
    (0 : Nat) ≠ 9 ∧ (2 : Nat) ≠ 99 ∧ (67 : Nat) ≠ 66 :=
  ⟨by decide, by decide, by decide, by decide⟩

/-- C8 (amended): writing `v` to register `i` (via LDI, the register
write path) stores `v` unmasked, so reading the register back yields `v`
itself — which coincides with `v mod 256` only when `v < 256`.  No modulo
is applied on write anywhere in the register file. -/
theorem ldi_write_read_unmasked (s : CPU) (i v : Nat)
    (hi : i < s.reg.length)
    (hop1 : s.ram.get? (s.pc + 1) = some i)
    (hop2 : s.ram.get? (s.pc + 2) = some v) :
    ∃ t, handle_ldi s = some t ∧ t.reg.get? i = some v := by
  have e1 : (s.pc : Int) + 1 = ((s.pc + 1 : Nat) : Int) := by push_cast; ring
  have e2 : (s.pc : Int) + 2 = ((s.pc + 2 : Nat) : Int) := by push_cast; ring
  have h1 : ram_read s ((s.pc : Int) + 1) = some i := by
    rw [ram_read, e1, pyGet_natCast _ _ (get?_lt_length hop1)]; exact hop1
  have h2 : ram_read s ((s.pc : Int) + 2) = some v := by
    rw [ram_read, e2, pyGet_natCast _ _ (get?_lt_length hop2)]; exact hop2
  have h3 : pySet s.reg (i : Int) v = some (s.reg.set i v) :=
    pySet_natCast _ _ _ hi
  refine ⟨{ s with reg := s.reg.set i v, pc := s.pc + 3 }, ?_, ?_⟩
  · simp [handle_ldi, h1, h2, h3]
  · rw [List.get?_eq_getElem?]
    exact List.getElem?_set_self hi

set_option maxRecDepth 4000 in
/-- C8 counterexample: LDI with the over-wide immediate 300 stores 300
into R0; reading it back yields 300, not 300 mod 256 = 44, refuting
masked-on-write for values ≥ 256. -/
theorem ldi_mask_counterexample :
    (handle_ldi exLdi).map (fun t => t.reg.get? 0) = some (some 300) ∧
    (300 : Nat) % 256 = 44 ∧ (300 : Nat) ≠ 44 :=
  ⟨by decide, by decide, by decide⟩

set_option maxRecDepth 4000 in
/-- C8 witness: the amended theorem at the LDI instruction storing 300
into R0. -/
theorem ldi_write_read_unmasked_witness :
    ∃ t, handle_ldi exLdi = some t ∧ t.reg.get? 0 = some 300 :=
  ldi_write_read_unmasked exLdi 0 300 (by decide) (by decide) (by decide)

/-- C9 (amended): `ram_read`/`ram_write` follow Python list-indexing
semantics: an address ≥ 256 or < −256 raises an uncaught `IndexError`
(modelled `none`) — the process crashes, no OutOfRange error is reported;
an address in −256..−1 is SILENTLY WRAPPED to cell `address + 256`; only
0..255 accesses the addressed cell directly. -/
theorem ram_access_out_of_range (s : CPU) (a : Int) (v : Nat)
    (hlen : s.ram.length = 256) :
    ((256 ≤ a ∨ a < -256) → ram_read s a = none ∧ ram_write s a v = none) ∧
    (-256 ≤ a → a < 0 → ram_read s a = s.ram.get? (a + 256).toNat ∧
      ram_write s a v = some { s with ram := s.ram.set (a + 256).toNat v }) ∧
    (0 ≤ a → a < 256 → ram_read s a = s.ram.get? a.toNat) := by
  refine ⟨?_, ?_, ?_⟩
  · intro h
    have c1 : ¬ (0 ≤ a ∧ a < (s.ram.length : Int)) := by rw [hlen]; omega
    have c2 : ¬ (0 ≤ a + (s.ram.length : Int) ∧ a < 0) := by rw [hlen]; omega
    constructor
    · rw [ram_read, pyGet, pyIdx, if_neg c1, if_neg c2]; rfl
    · rw [ram_write, pySet, pyIdx, if_neg c1, if_neg c2]; rfl
  · intro h1 h2
    have c1 : ¬ (0 ≤ a ∧ a < (s.ram.length : Int)) := by rw [hlen]; omega
    have c2 : 0 ≤ a + (s.ram.length : Int) ∧ a < 0 := by rw [hlen]; omega
    have e : a + (s.ram.length : Int) = a + 256 := by rw [hlen]; norm_num
    constructor
    · rw [ram_read, pyGet, pyIdx, if_neg c1, if_pos c2, e]; rfl
    · rw [ram_write, pySet, pyIdx, if_neg c1, if_pos c2, e]; rfl
  · intro h1 h2
    have c1 : 0 ≤ a ∧ a < (s.ram.length : Int) := by rw [hlen]; omega
    rw [ram_read, pyGet, pyIdx, if_pos c1]; rfl

set_option maxRecDepth 4000 in
/-- C9 counterexample: reading address −1 (outside 0 ≤ address < 256)
does not fail: it silently wraps to cell 255 and returns its value 7. -/
theorem ram_read_wrap_counterexample :
    ram_read exWrap (-1) = some 7 ∧ exWrap.ram.get? 255 = some 7 ∧
    ((-1 : Int) < 0) :=
  ⟨by decide, by decide, by decide⟩

set_option maxRecDepth 4000 in
/-- C9 witness: the amended theorem at address 300 of the fresh CPU: the
access raises (crashes) rather than being reported or wrapped. -/
theorem ram_access_out_of_range_witness :
    ram_read initCPU 300 = none ∧ ram_write initCPU 300 0 = none :=
  (ram_access_out_of_range initCPU 300 0 (by decide)).1 (Or.inl (by decide))

/-- C10: dispatching the ST opcode reaches the second (shadowing)
`handle_st` definition, which only appends the label "ST" to the output
and leaves PC, SP, every register, every memory cell, and the flags
register unchanged — in particular PC is not advanced past the ST
instruction. -/
theorem st_dispatch_frame (s : CPU) (hir : ram_read s (s.pc : Int) = some ST) :
    ∃ t, step s = Outcome.next t ∧ handle_st s = some t ∧ t.pc = s.pc ∧
      t.sp = s.sp ∧ t.reg = s.reg ∧ t.ram = s.ram ∧ t.fl = s.fl ∧
      t.output = s.output ++ ["ST"] := by
  refine ⟨{ s with output := s.output ++ ["ST"] }, ?_, rfl, rfl, rfl, rfl,
    rfl, rfl, rfl⟩
  unfold step
  rw [hir]
  rfl

set_option maxRecDepth 4000 in
/-- C10 witness: the ST opcode at address 0 of an otherwise fresh CPU. -/
theorem st_dispatch_frame_witness :
    ∃ t, step exSt = Outcome.next t ∧ handle_st exSt = some t ∧
      t.pc = exSt.pc ∧ t.sp = exSt.sp ∧ t.reg = exSt.reg ∧ t.ram = exSt.ram ∧
      t.fl = exSt.fl ∧ t.output = exSt.output ++ ["ST"] :=
  st_dispatch_frame exSt (by decide)
